import Mathlib

/-!
Shallow embedding of `_scripts/nr.py`: a script that reads a spec string,
looks each character up in a fixed reference alphabet with `str.find`,
combines the resulting indices with the weights 1, 9, 3, 27, adds 1, and
prints the result followed by ".png".
-/

namespace Nr

/-- Reference alphabet for the shading attribute (source: `shading = 'fhe'`). -/
def shading : List Char := ['f', 'h', 'e']

/-- Reference alphabet for the shape attribute (source: `shape = 'sdo'`). -/
def shape : List Char := ['s', 'd', 'o']

/-- Reference alphabet for the color attribute (source: `color = 'rpg'`). -/
def color : List Char := ['r', 'p', 'g']

/-- Reference alphabet for the number attribute (source: `number = '123'`). -/
def number : List Char := ['1', '2', '3']

/-- Python `r.find(a)`: the index of the first occurrence of `a` in `r`,
or -1 when `a` does not occur in `r`. -/
def find : List Char → Char → Int
  | [], _ => -1
  | c :: cs, a =>
    if c = a then 0
    else
      let k := find cs a
      if k = -1 then -1 else k + 1

/-- The tuple `(number, shape, color, shading)` the source zips the input
string with. -/
def refs : List (List Char) := [number, shape, color, shading]

/-- Source line `t = [r.find(a) for (r,a) in zip((number,shape,color,shading),spec)]`. -/
def t (spec : List Char) : List Int :=
  (refs.zip spec).map (fun p => find p.1 p.2)

/-- The weight list `[1,9,3,27]` of the source. -/
def weights : List Int := [1, 9, 3, 27]

/-- Source line `n = sum(x*y for (x,y) in zip(t,[1,9,3,27]))`. -/
def n (spec : List Char) : Int :=
  (((t spec).zip weights).map (fun p => p.1 * p.2)).sum

/-- Source line `print('\x7b\x7d.png'.format(n+1))`: the single line the
program writes to standard output. -/
def output (spec : List Char) : String :=
  toString (n spec + 1) ++ ".png"

/-- Encoding of a valid spec from the index of each character in its
alphabet: position i of the result is the character of alphabet i at the
given index. -/
def enc (q : Fin 3 × Fin 3 × Fin 3 × Fin 3) : List Char :=
  [number.get ⟨q.1.1, q.1.2⟩, shape.get ⟨q.2.1.1, q.2.1.2⟩,
   color.get ⟨q.2.2.1.1, q.2.2.1.2⟩, shading.get ⟨q.2.2.2.1, q.2.2.2.2⟩]

/-- The integer the program prints for a valid spec. -/
def value (q : Fin 3 × Fin 3 × Fin 3 × Fin 3) : Int := n (enc q) + 1

/-- Python `str.find` returns -1 when the character is absent. -/
theorem find_eq_neg_one_of_not_mem (r : List Char) (a : Char) (h : a ∉ r) :
    find r a = -1 := by
  induction r with
  | nil => rfl
  | cons c cs ih =>
    have hca : ¬ c = a := fun hc => h (by rw [← hc]; exact List.mem_cons_self c cs)
    have h2 : a ∉ cs := fun hm => h (List.mem_cons_of_mem c hm)
    simp [find, hca, ih h2]

/-- The output only depends on the first four characters of the input,
because the source zips the input with a 4-tuple of alphabets. -/
theorem output_take : ∀ s : List Char, output s = output (s.take 4)
  | [] => rfl
  | [_] => rfl
  | [_, _] => rfl
  | [_, _, _] => rfl
  | _ :: _ :: _ :: _ :: _ => rfl

/-- C1: for every 4-character input whose character i appears in reference
alphabet i (number, shape, color, shading, in that order), the output is the
decimal representation of i0*1 + i1*9 + i2*3 + i3*27 + 1 concatenated with
".png", where i0..i3 are the zero-based indices of the four characters in
their respective alphabets. -/
theorem C1_valid_spec_filename (a b c d : Char)
    (ha : a ∈ number) (hb : b ∈ shape) (hc : c ∈ color) (hd : d ∈ shading) :
    output [a, b, c, d] =
      toString ((number.indexOf a : Int) * 1 + (shape.indexOf b : Int) * 9 +
        (color.indexOf c : Int) * 3 + (shading.indexOf d : Int) * 27 + 1) ++ ".png" := by
  simp only [number, shape, color, shading, List.mem_cons, List.not_mem_nil,
    or_false] at ha hb hc hd
  rcases ha with rfl | rfl | rfl <;> rcases hb with rfl | rfl | rfl <;>
    rcases hc with rfl | rfl | rfl <;> rcases hd with rfl | rfl | rfl <;> rfl

/-- Witness for C1 at the concrete valid spec "2dgh". -/
theorem C1_witness :
    output ['2', 'd', 'g', 'h'] =
      toString ((number.indexOf '2' : Int) * 1 + (shape.indexOf 'd' : Int) * 9 +
        (color.indexOf 'g' : Int) * 3 + (shading.indexOf 'h' : Int) * 27 + 1) ++ ".png" :=
  C1_valid_spec_filename '2' 'd' 'g' 'h' (by decide) (by decide) (by decide) (by decide)

/-- C2: for every valid spec, the printed output matches the pattern
`<integer>.png` with the integer in the inclusive range [1, 81]. -/
theorem C2_output_in_range (a b c d : Char)
    (ha : a ∈ number) (hb : b ∈ shape) (hc : c ∈ color) (hd : d ∈ shading) :
    1 ≤ n [a, b, c, d] + 1 ∧ n [a, b, c, d] + 1 ≤ 81 ∧
      output [a, b, c, d] = toString (n [a, b, c, d] + 1) ++ ".png" := by
  simp only [number, shape, color, shading, List.mem_cons, List.not_mem_nil,
    or_false] at ha hb hc hd
  rcases ha with rfl | rfl | rfl <;> rcases hb with rfl | rfl | rfl <;>
    rcases hc with rfl | rfl | rfl <;> rcases hd with rfl | rfl | rfl <;>
    exact ⟨by decide, by decide, rfl⟩

/-- Witness for C2 at the concrete valid spec "2dgh". -/
theorem C2_witness :
    1 ≤ n ['2', 'd', 'g', 'h'] + 1 ∧ n ['2', 'd', 'g', 'h'] + 1 ≤ 81 ∧
      output ['2', 'd', 'g', 'h'] =
        toString (n ['2', 'd', 'g', 'h'] + 1) ++ ".png" :=
  C2_output_in_range '2' 'd' 'g' 'h' (by decide) (by decide) (by decide) (by decide)

/-- C3 counterexample: on the input "xdgh", whose first character is absent
from the number alphabet, the program does not fail: it prints the
well-formed filename "42.png" (42 even lies in [1, 81]). -/
theorem C3_counterexample :
    'x' ∉ number ∧ output ['x', 'd', 'g', 'h'] = "42.png" := by decide

/-- C3 amended: if a character of a 4-character input is absent from its
alphabet, the lookup returns -1, the computation proceeds, and the program
still prints a filename of the form `<integer>.png`. -/
theorem C3_invalid_char_total (a b c d : Char)
    (h : a ∉ number ∨ b ∉ shape ∨ c ∉ color ∨ d ∉ shading) :
    (a ∉ number → find number a = -1) ∧
    (b ∉ shape → find shape b = -1) ∧
    (c ∉ color → find color c = -1) ∧
    (d ∉ shading → find shading d = -1) ∧
    output [a, b, c, d] = toString (n [a, b, c, d] + 1) ++ ".png" :=
  ⟨find_eq_neg_one_of_not_mem number a, find_eq_neg_one_of_not_mem shape b,
   find_eq_neg_one_of_not_mem color c, find_eq_neg_one_of_not_mem shading d, rfl⟩

/-- Witness for the amended C3 at the concrete input "xdgh". -/
theorem C3_witness :
    ('x' ∉ number → find number 'x' = -1) ∧
    ('d' ∉ shape → find shape 'd' = -1) ∧
    ('g' ∉ color → find color 'g' = -1) ∧
    ('h' ∉ shading → find shading 'h' = -1) ∧
    output ['x', 'd', 'g', 'h'] = toString (n ['x', 'd', 'g', 'h'] + 1) ++ ".png" :=
  C3_invalid_char_total 'x' 'd' 'g' 'h' (Or.inl (by decide))

/-- C4 counterexample: on the 1-character input "1" the program does not
fail: it prints the filename "1.png". -/
theorem C4_counterexample :
    (['1'] : List Char).length < 4 ∧ output ['1'] = "1.png" := by decide

/-- C4 amended: if the input has fewer than 4 characters, zip truncation
drops the missing positions and the program still prints a filename of the
form `<integer>.png`. -/
theorem C4_short_input_total (spec : List Char) (h : spec.length < 4) :
    (t spec).length = spec.length ∧
      output spec = toString (n spec + 1) ++ ".png" := by
  refine ⟨?_, rfl⟩
  simp only [t, List.length_map, List.length_zip]
  have h4 : refs.length = 4 := rfl
  omega

/-- Witness for the amended C4 at the concrete input "1". -/
theorem C4_witness :
    (t ['1']).length = (['1'] : List Char).length ∧
      output ['1'] = toString (n ['1'] + 1) ++ ".png" :=
  C4_short_input_total ['1'] (by decide)

/-- C5: decoding "2dgh" gives the indices 1, 1, 2, 1 in the alphabets
number, shape, color, shading, and the printed output is "44.png". -/
theorem C5_example_2dgh :
    find number '2' = 1 ∧ find shape 'd' = 1 ∧ find color 'g' = 2 ∧
    find shading 'h' = 1 ∧
    n ['2', 'd', 'g', 'h'] + 1 = 1 * 1 + 1 * 9 + 2 * 3 + 1 * 27 + 1 ∧
    output ['2', 'd', 'g', 'h'] = "44.png" := by decide

/-- C6: the program is deterministic: equal inputs give equal outputs (the
embedded function is a pure function of its argument). -/
theorem C6_deterministic (s₁ s₂ : List Char) (h : s₁ = s₂) :
    output s₁ = output s₂ := by rw [h]

/-- Witness for C6 at the concrete input "2dgh" taken twice. -/
theorem C6_witness : output ['2', 'd', 'g', 'h'] = output ['2', 'd', 'g', 'h'] :=
  C6_deterministic ['2', 'd', 'g', 'h'] ['2', 'd', 'g', 'h'] rfl

set_option maxRecDepth 10000 in
/-- C7: the encoding is a bijection from valid specs to output integers:
distinct valid specs yield distinct printed integers (hence distinct
filenames), and every integer in 1..81 is attained by some valid spec. -/
theorem C7_bijection :
    (∀ q q' : Fin 3 × Fin 3 × Fin 3 × Fin 3,
      output (enc q) = output (enc q') → q = q') ∧
    (∀ m : Int, (1 ≤ m ∧ m ≤ 81) ↔
      ∃ q : Fin 3 × Fin 3 × Fin 3 × Fin 3, value q = m) := by
  have key : ∀ f : Fin 81,
      ∃ q : Fin 3 × Fin 3 × Fin 3 × Fin 3, value q = (f : Int) + 1 := by decide
  have rng : ∀ q : Fin 3 × Fin 3 × Fin 3 × Fin 3,
      1 ≤ value q ∧ value q ≤ 81 := by decide
  refine ⟨by decide, fun m => ⟨?_, ?_⟩⟩
  · rintro ⟨h1, h2⟩
    obtain ⟨q, hq⟩ := key ⟨(m - 1).toNat, by omega⟩
    refine ⟨q, ?_⟩
    rw [hq]
    simp only [Fin.val_mk]
    omega
  · rintro ⟨q, hq⟩
    obtain ⟨h1, h2⟩ := rng q
    omega

/-- C8: the computation is total on every input string: an absent character
contributes -1 through the lookup, missing positions are dropped by zip
truncation, the program prints exactly one line of the form `<integer>.png`,
and the integer can be zero or negative for invalid specs. -/
theorem C8_total (spec : List Char) :
    (t spec).length = min 4 spec.length ∧
    output spec = toString (n spec + 1) ++ ".png" ∧
    (∀ r a, a ∉ r → find r a = -1) ∧
    (∃ s : List Char, n s + 1 = 0) ∧
    (∃ s : List Char, n s + 1 < 0) := by
  refine ⟨?_, rfl, find_eq_neg_one_of_not_mem,
    ⟨['x'], by decide⟩, ⟨['1', 'x'], by decide⟩⟩
  simp only [t, List.length_map, List.length_zip]
  rfl

/-- C9: characters beyond the fourth are ignored: two inputs that agree on
their first four characters produce identical output. -/
theorem C9_ignores_trailing (s₁ s₂ : List Char) (h : s₁.take 4 = s₂.take 4) :
    output s₁ = output s₂ := by
  rw [output_take s₁, output_take s₂, h]

/-- Witness for C9: "2dgh" and "2dghz" print the same line. -/
theorem C9_witness :
    output ['2', 'd', 'g', 'h'] = output ['2', 'd', 'g', 'h', 'z'] :=
  C9_ignores_trailing ['2', 'd', 'g', 'h'] ['2', 'd', 'g', 'h', 'z'] (by decide)

end Nr
